import Mathlib

/-!
# Verification of the ark-xsk233 group-arithmetic wrapper

Shallow embedding of the xsk233 curve wrapper (src/lib.rs, src/affine.rs,
src/group.rs, src/xsk233.rs).  The low-level curve arithmetic lives in the
external `xs233_sys` crate, which is out of scope for the repository; it is
modelled here as an abstract engine structure `Xs233Engine` together with the
contract `EngineContract` stated by the specification for the consumed
interface.  Everything above the engine is translated directly from the
Rust source.
-/

/-- Little-endian value of a byte sequence: `leVal [b0, b1, ...] = b0 + 256*b1 + ...`.
Used to state the semantics of the engine's scalar-multiplication primitive,
which consumes a little-endian byte sequence. -/
def leVal (bytes : List Nat) : Nat :=
  bytes.foldr (fun b acc => b + 256 * acc) 0

/-- Little-endian byte expansion of `n` padded/truncated to exactly `len` bytes.
`leBytesPad n 8` is `u64::to_le_bytes` on Nat values below `2^64`. -/
def leBytesPad : Nat → Nat → List Nat
  | _, 0 => []
  | n, len + 1 => n % 256 :: leBytesPad (n / 256) len

/-- `u64::to_le_bytes`: the 8 little-endian bytes of a 64-bit limb. -/
def u64_to_le_bytes (w : Nat) : List Nat := leBytesPad w 8

/-- The `while let Some(&last) = bytes.last() { if last == 0 { bytes.pop() } ... }`
loop of `bigint_to_le_bytes`: remove the maximal all-zero suffix. -/
def stripTrailingZeros (l : List Nat) : List Nat :=
  (l.reverse.dropWhile (fun b => b == 0)).reverse

/-- `bigint_to_le_bytes` from src/lib.rs: concatenate the little-endian bytes
of the four 64-bit limbs, truncate to 30 bytes, then strip trailing zeros. -/
def bigint_to_le_bytes (limbs : List Nat) : List Nat :=
  stripTrailingZeros (((limbs.map u64_to_le_bytes).flatten).take 30)

/-- Minimal little-endian byte encoding of a natural number: empty for `0`,
never ends in a zero byte. -/
def leEnc : Nat → List Nat
  | 0 => []
  | n + 1 => ((n + 1) % 256) :: leEnc ((n + 1) / 256)
decreasing_by exact Nat.div_lt_self (Nat.succ_pos n) (by norm_num)

/-- Modulus of the scalar field Fr (src/xsk233.rs, `FrConfig`). -/
def frModulus : Nat :=
  3450873173395281893717377931138512760570940988862252126328087024741343

/-- Modulus of the base field Fq (src/xsk233.rs, `FqConfig`). -/
def qModulus : Nat :=
  13803492693581127574869511724554050904902217944340773110325048447598591

/-- The scalar field `Fr = Fp256<MontBackend<FrConfig, 4>>`. -/
abbrev Fr := ZMod frModulus

/-- The base field `Fq = Fp256<MontBackend<FqConfig, 4>>`. -/
abbrev Fq := ZMod qModulus

instance : NeZero frModulus := ⟨by decide⟩

instance : Fact (1 < frModulus) := ⟨by norm_num [frModulus]⟩

/-- `Fr::into_bigint`: the four 64-bit little-endian limbs of the canonical
representative of a scalar. -/
def frIntoBigint (k : Fr) : List Nat :=
  [k.val % 2 ^ 64, k.val / 2 ^ 64 % 2 ^ 64, k.val / 2 ^ 128 % 2 ^ 64,
    k.val / 2 ^ 192 % 2 ^ 64]

/-- `ark_serialize::Compress`. -/
inductive Compress
  | Yes
  | No
deriving DecidableEq

/-- `ark_serialize::Validate`. -/
inductive Validate
  | Yes
  | No
deriving DecidableEq

/-- `std::io::ErrorKind`, restricted to the kinds the wrapper produces. -/
inductive IoErrKind
  | unsupported
  | unexpectedEof
  | other
deriving DecidableEq

/-- `ark_serialize::SerializationError`, restricted to the variants the
wrapper produces. -/
inductive SerializationError
  | ioError (kind : IoErrKind) (msg : String)
deriving DecidableEq

/-- Outcome of a Rust computation that may panic (`unimplemented!`). -/
inductive RustOutcome (α : Type)
  | ok (val : α)
  | panicked (msg : String)
deriving DecidableEq

/-- The external `xs233_sys` curve-arithmetic engine, abstracted over its
point type.  `equals` returns the raw C sentinel (`0xFFFFFFFF` for equal, `0`
for unequal); `encode` fills a 30-byte buffer; `decode` consumes bytes and
reports failure with `none`; `mulFrob` consumes a point and a little-endian
scalar byte sequence. -/
structure Xs233Engine where
  Point : Type
  neutral : Point
  generator : Point
  equals : Point → Point → Nat
  mulFrob : Point → List Nat → Point
  encode : Point → Fin 30 → Nat
  decode : List Nat → Option Point

/-- Modelled from the spec: the contract of the consumed external
curve-arithmetic engine (spec section 6 and sections 4.2/4.4): the equality
primitive returns the boolean-like sentinel `-1`/`0`, is reflexive and
symmetric; the compressed encoding is canonical for the equality relation and
decode recovers an encoded point; scalar multiplication by a byte sequence of
value 0 gives the identity and by value 1 gives the point back. -/
structure EngineContract (E : Xs233Engine) : Prop where
  equals_cases : ∀ p q, E.equals p q = 0 ∨ E.equals p q = 4294967295
  equals_refl : ∀ p, E.equals p p = 4294967295
  equals_symm : ∀ p q, E.equals p q = E.equals q p
  equals_encode : ∀ p q, E.equals p q ≠ 0 → E.encode p = E.encode q
  decode_encode : ∀ p, ∃ q, E.decode (List.ofFn (E.encode p)) = some q ∧
    E.equals q p ≠ 0
  mulFrob_zero : ∀ p bytes, leVal bytes = 0 →
    E.equals (E.mulFrob p bytes) E.neutral ≠ 0
  mulFrob_one : ∀ p bytes, leVal bytes = 1 →
    E.equals (E.mulFrob p bytes) p ≠ 0

/-- `Xsk233Affine` (src/affine.rs): wraps one opaque native point. -/
structure Xsk233Affine (E : Xs233Engine) where
  pt : E.Point

/-- `Xsk233Projective` (src/group.rs): wraps the same opaque native point. -/
structure Xsk233Projective (E : Xs233Engine) where
  pt : E.Point

/-- `From<Xsk233Affine> for Xsk233Projective` / `AffineRepr::into_group`:
representation-preserving conversion. -/
def Xsk233Affine.into_group {E : Xs233Engine} (a : Xsk233Affine E) :
    Xsk233Projective E :=
  ⟨a.pt⟩

/-- `From<Xsk233Projective> for Xsk233Affine` / `CurveGroup::into_affine`. -/
def Xsk233Projective.into_affine {E : Xs233Engine} (p : Xsk233Projective E) :
    Xsk233Affine E :=
  ⟨p.pt⟩

/-- `Zero::zero` for `Xsk233Projective`: the neutral sentinel. -/
def Xsk233Projective.zero (E : Xs233Engine) : Xsk233Projective E :=
  ⟨E.neutral⟩

/-- `AffineRepr::zero` for `Xsk233Affine`: the neutral sentinel. -/
def Xsk233Affine.zero (E : Xs233Engine) : Xsk233Affine E :=
  ⟨E.neutral⟩

/-- `PartialEq for Xsk233Projective`: `xsk233_equals(self, other) != 0`. -/
def Xsk233Projective.beq {E : Xs233Engine} (p q : Xsk233Projective E) : Bool :=
  E.equals p.pt q.pt != 0

/-- `PartialEq<Xsk233Affine> for Xsk233Projective`:
`xsk233_equals(self, other) != 0`. -/
def Xsk233Projective.beqAff {E : Xs233Engine} (p : Xsk233Projective E)
    (a : Xsk233Affine E) : Bool :=
  E.equals p.pt a.pt != 0

/-- `PartialEq<Self> for Xsk233Affine`:
`self.into_group() == other.into_group()`. -/
def Xsk233Affine.beq {E : Xs233Engine} (a b : Xsk233Affine E) : Bool :=
  a.into_group.beq b.into_group

/-- `PartialEq<Xsk233Projective> for Xsk233Affine`:
`C_XSK233_EQUALS_TRUE == xsk233_equals(self, other)`. -/
def Xsk233Affine.beqProj {E : Xs233Engine} (a : Xsk233Affine E)
    (p : Xsk233Projective E) : Bool :=
  4294967295 == E.equals a.pt p.pt

/-- `CanonicalSerialize::serialize_with_mode` for `Xsk233Projective`
(src/group.rs): refuse `Compress::No` with an `Unsupported` io error writing
nothing; otherwise fill a 30-byte buffer with `xsk233_encode` and write it.
The result is the pair (return value, bytes written to the writer). -/
def Xsk233Projective.serialize_with_mode {E : Xs233Engine}
    (p : Xsk233Projective E) (compress : Compress) :
    Except SerializationError Unit × List Nat :=
  match compress with
  | .No =>
    (.error (.ioError .unsupported
      "serialization without compression is not supported"), [])
  | .Yes => (.ok (), List.ofFn (E.encode p.pt))

/-- `CanonicalSerialize::serialize_with_mode` for `Xsk233Affine`
(src/affine.rs): textually the same body as the projective one. -/
def Xsk233Affine.serialize_with_mode {E : Xs233Engine}
    (a : Xsk233Affine E) (compress : Compress) :
    Except SerializationError Unit × List Nat :=
  match compress with
  | .No =>
    (.error (.ioError .unsupported
      "serialization without compression is not supported"), [])
  | .Yes => (.ok (), List.ofFn (E.encode a.pt))

/-- `CanonicalSerialize::serialize_compressed` (arkworks default):
`serialize_with_mode(writer, Compress::Yes)`. -/
def Xsk233Projective.serialize_compressed {E : Xs233Engine}
    (p : Xsk233Projective E) : Except SerializationError Unit × List Nat :=
  p.serialize_with_mode .Yes

/-- `CanonicalSerialize::serialize_compressed` (arkworks default) for
`Xsk233Affine`. -/
def Xsk233Affine.serialize_compressed {E : Xs233Engine}
    (a : Xsk233Affine E) : Except SerializationError Unit × List Nat :=
  a.serialize_with_mode .Yes

/-- `CanonicalDeserialize::deserialize_with_mode` for `Xsk233Projective`
(src/group.rs): refuse `Compress::No`; read exactly 30 bytes from the reader;
run `xsk233_decode` and fail when it reports an invalid encoding.  The
`validate` argument is ignored by the source (`_validate`). -/
def Xsk233Projective.deserialize_with_mode (E : Xs233Engine)
    (reader : List Nat) (compress : Compress) (validate : Validate) :
    Except SerializationError (Xsk233Projective E) :=
  match compress with
  | .No =>
    .error (.ioError .unsupported
      "deserialization without compression is not supported")
  | .Yes =>
    if reader.length < 30 then
      .error (.ioError .unexpectedEof "failed to fill whole buffer")
    else
      match E.decode (reader.take 30) with
      | none => .error (.ioError .other "failed to deserialize")
      | some pt => .ok ⟨pt⟩

/-- `CanonicalDeserialize::deserialize_with_mode` for `Xsk233Affine`
(src/affine.rs): delegate to the projective deserializer and convert. -/
def Xsk233Affine.deserialize_with_mode (E : Xs233Engine)
    (reader : List Nat) (compress : Compress) (validate : Validate) :
    Except SerializationError (Xsk233Affine E) :=
  (Xsk233Projective.deserialize_with_mode E reader compress validate).map
    Xsk233Projective.into_affine

/-- `CanonicalDeserialize::deserialize_compressed` (arkworks default):
`deserialize_with_mode(reader, Compress::Yes, Validate::Yes)`. -/
def Xsk233Projective.deserialize_compressed (E : Xs233Engine)
    (reader : List Nat) : Except SerializationError (Xsk233Projective E) :=
  Xsk233Projective.deserialize_with_mode E reader .Yes .Yes

/-- `CanonicalDeserialize::deserialize_compressed` (arkworks default) for
`Xsk233Affine`. -/
def Xsk233Affine.deserialize_compressed (E : Xs233Engine)
    (reader : List Nat) : Except SerializationError (Xsk233Affine E) :=
  Xsk233Affine.deserialize_with_mode E reader .Yes .Yes

/-- `Hash for Xsk233Projective` (src/group.rs): serialize compressed into a
fresh buffer and, when that succeeds, feed the buffer to the hasher.  The
value is the data fed to the hasher. -/
def Xsk233Projective.hash_input {E : Xs233Engine}
    (p : Xsk233Projective E) : List Nat :=
  match p.serialize_compressed with
  | (.ok _, ser) => ser
  | (.error _, _) => []

/-- `Hash for Xsk233Affine` (src/affine.rs): `Hash::hash(&self.into_group(),
state)` — delegates to the projective hash. -/
def Xsk233Affine.hash_input {E : Xs233Engine} (a : Xsk233Affine E) :
    List Nat :=
  a.into_group.hash_input

/-- `MulAssign`/`Mul` by a scalar for `Xsk233Projective` (src/group.rs):
convert the scalar to stripped little-endian bytes, call `xsk233_mul_frob`. -/
def Xsk233Projective.mulScalar {E : Xs233Engine} (p : Xsk233Projective E)
    (k : Fr) : Xsk233Projective E :=
  ⟨E.mulFrob p.pt (bigint_to_le_bytes (frIntoBigint k))⟩

/-- `Mul<ScalarField> for Xsk233Affine` (src/affine.rs): same scalar byte
conversion, `xsk233_mul_frob` on the wrapped point, result projective. -/
def Xsk233Affine.mulScalar {E : Xs233Engine} (a : Xsk233Affine E)
    (k : Fr) : Xsk233Projective E :=
  ⟨E.mulFrob a.pt (bigint_to_le_bytes (frIntoBigint k))⟩

/-- `Xsk233CurveConfig::COFACTOR` (src/xsk233.rs): `&[0x4]`.  Its doc comment
in the source claims `COFACTOR = 1`. -/
def Xsk233CurveConfig.COFACTOR : List Nat := [4]

/-- `AffineRepr::mul_by_cofactor_to_group` (src/affine.rs):
`self.mul(ScalarField::from(*COFACTOR.first().unwrap()))`. -/
def Xsk233Affine.mul_by_cofactor_to_group {E : Xs233Engine}
    (a : Xsk233Affine E) : Xsk233Projective E :=
  a.mulScalar ((Xsk233CurveConfig.COFACTOR.headI : Nat) : Fr)

/-- `AffineRepr::clear_cofactor` (src/affine.rs):
`self.mul_by_cofactor_to_group().into_affine()`. -/
def Xsk233Affine.clear_cofactor {E : Xs233Engine} (a : Xsk233Affine E) :
    Xsk233Affine E :=
  a.mul_by_cofactor_to_group.into_affine

/-- `AffineRepr::xy` (src/affine.rs): `unimplemented!` — the engine's point
encoding is coordinate-opaque. -/
def Xsk233Affine.xy {E : Xs233Engine} (a : Xsk233Affine E) :
    RustOutcome (Option (Fq × Fq)) :=
  .panicked
    "xsk233-sys crate that is used under the hood does not allow to operate with x and y concepts. Therefore, there is no direct way in getting x and y coordinates."

/-- `CurveGroup::normalize_batch` (src/group.rs): `unimplemented!` for every
input slice. -/
def Xsk233Projective.normalize_batch (E : Xs233Engine)
    (v : List (Xsk233Projective E)) : RustOutcome (List (Xsk233Affine E)) :=
  .panicked
    "xsk233_point structure is used in both affine and projective coordinates so there is no sense in normalization."

/-- `Valid::check` for `Xsk233Affine` (src/affine.rs): unconditional `Ok`. -/
def Xsk233Affine.check {E : Xs233Engine} (a : Xsk233Affine E) :
    Except SerializationError Unit :=
  .ok ()

/-- `Valid::check` for `Xsk233Projective` (src/group.rs):
`self.into_affine().check()`. -/
def Xsk233Projective.check {E : Xs233Engine} (p : Xsk233Projective E) :
    Except SerializationError Unit :=
  p.into_affine.check

/-- Modelled from the spec: the arkworks `Valid::batch_check` default for
`Xsk233Affine` (the trait default is not part of this repository): check each
element in turn, propagating the first error. -/
def Xsk233Affine.batch_check {E : Xs233Engine} :
    List (Xsk233Affine E) → Except SerializationError Unit
  | [] => .ok ()
  | a :: rest =>
    match a.check with
    | .error e => .error e
    | .ok () => Xsk233Affine.batch_check rest

/-- `Valid::batch_check` for `Xsk233Projective` (src/group.rs): collect the
iterator, call `normalize_batch` (which panics), then the affine batch check
on the result. -/
def Xsk233Projective.batch_check (E : Xs233Engine)
    (batch : List (Xsk233Projective E)) :
    RustOutcome (Except SerializationError Unit) :=
  match Xsk233Projective.normalize_batch E batch with
  | .panicked msg => .panicked msg
  | .ok affs => .ok (Xsk233Affine.batch_check affs)

/-- A small concrete engine over the additive group `ZMod 5`, used to
instantiate theorems that assume the engine contract: equality is the C
sentinel of decidable equality, the encoding stores the canonical
representative in the first byte, and scalar multiplication interprets the
byte sequence little-endian. -/
def cyclicEngine : Xs233Engine where
  Point := ZMod 5
  neutral := 0
  generator := 1
  equals p q := if p = q then 4294967295 else 0
  mulFrob p bytes := leVal bytes • p
  encode p i := if i.val = 0 then p.val else 0
  decode bytes :=
    match bytes with
    | [] => none
    | b :: rest =>
      if b < 5 ∧ rest = List.replicate 29 0 then some ((b : ZMod 5)) else none

theorem leBytesPad_length (m n : Nat) : (leBytesPad n m).length = m := by
  induction m generalizing n with
  | zero => rfl
  | succ m ih => simp [leBytesPad, ih]

theorem leBytesPad_zero_eq_replicate (m : Nat) :
    leBytesPad 0 m = List.replicate m 0 := by
  induction m with
  | zero => rfl
  | succ m ih => simp [leBytesPad, ih, List.replicate_succ]

theorem leBytesPad_split (j m n : Nat) :
    leBytesPad n (j + m) =
      leBytesPad (n % 256 ^ j) j ++ leBytesPad (n / 256 ^ j) m := by
  induction j generalizing n with
  | zero => simp [leBytesPad]
  | succ j ih =>
    have hstep : j + 1 + m = (j + m) + 1 := by omega
    rw [hstep]
    show n % 256 :: leBytesPad (n / 256) (j + m) = _
    rw [ih (n / 256)]
    have ha : n % 256 ^ (j + 1) % 256 = n % 256 :=
      Nat.mod_mod_of_dvd n (dvd_pow_self 256 (Nat.succ_ne_zero j))
    have hb : n % 256 ^ (j + 1) / 256 = n / 256 % 256 ^ j := by
      have : (256 : Nat) ^ (j + 1) = 256 * 256 ^ j := by ring
      rw [this, Nat.mod_mul_right_div_self]
    have hc : n / 256 / 256 ^ j = n / 256 ^ (j + 1) := by
      rw [Nat.div_div_eq_div_mul]
      congr 1
      ring
    show _ = (n % 256 ^ (j + 1)) % 256 ::
      (leBytesPad (n % 256 ^ (j + 1) / 256) j ++ leBytesPad (n / 256 ^ (j + 1)) m)
    rw [ha, hb, hc]

theorem leEnc_zero : leEnc 0 = [] := by
  simp [leEnc]

theorem leEnc_pos (n : Nat) (h : n ≠ 0) :
    leEnc n = n % 256 :: leEnc (n / 256) := by
  cases n with
  | zero => exact absurd rfl h
  | succ m => simp [leEnc]

theorem leEnc_getLast_ne_zero (n : Nat) : (leEnc n).getLast? ≠ some 0 := by
  induction n using Nat.strong_induction_on with
  | _ n ih =>
    by_cases h0 : n = 0
    · subst h0
      rw [leEnc_zero]
      simp
    · rw [leEnc_pos n h0]
      by_cases hsmall : n / 256 = 0
      · rw [hsmall, leEnc_zero]
        have hlt : n < 256 := by
          by_contra hge
          exact (Nat.div_pos (Nat.le_of_not_lt hge) (by norm_num)).ne' hsmall
        have : n % 256 = n := Nat.mod_eq_of_lt hlt
        simp [this, h0]
      · rw [leEnc_pos (n / 256) hsmall]
        rw [List.getLast?_cons_cons]
        rw [← leEnc_pos (n / 256) hsmall]
        exact ih (n / 256) (Nat.div_lt_self (Nat.pos_of_ne_zero h0) (by norm_num))

theorem leEnc_length_le (m : Nat) : ∀ n, n < 256 ^ m → (leEnc n).length ≤ m := by
  induction m with
  | zero =>
    intro n hn
    interval_cases n
    simp [leEnc_zero]
  | succ m ih =>
    intro n hn
    by_cases h0 : n = 0
    · simp [h0, leEnc_zero]
    · rw [leEnc_pos n h0]
      have : n / 256 < 256 ^ m := by
        rw [Nat.div_lt_iff_lt_mul (by norm_num : (0:Nat) < 256)]
        calc n < 256 ^ (m + 1) := hn
        _ = 256 ^ m * 256 := by ring
      simpa using Nat.succ_le_succ (ih (n / 256) this)

theorem leBytesPad_eq_enc (m : Nat) : ∀ n, n < 256 ^ m →
    leBytesPad n m = leEnc n ++ List.replicate (m - (leEnc n).length) 0 := by
  induction m with
  | zero =>
    intro n hn
    interval_cases n
    simp [leBytesPad, leEnc_zero]
  | succ m ih =>
    intro n hn
    by_cases h0 : n = 0
    · subst h0
      rw [leBytesPad_zero_eq_replicate, leEnc_zero]
      simp
    · have hdiv : n / 256 < 256 ^ m := by
        rw [Nat.div_lt_iff_lt_mul (by norm_num : (0:Nat) < 256)]
        calc n < 256 ^ (m + 1) := hn
        _ = 256 ^ m * 256 := by ring
      show n % 256 :: leBytesPad (n / 256) m = _
      rw [ih (n / 256) hdiv, leEnc_pos n h0]
      show _ = (n % 256 :: leEnc (n / 256)) ++ _
      rw [List.cons_append]
      congr 2
      simp

theorem dropWhile_zero_replicate (j : Nat) :
    List.dropWhile (fun b => b == 0) (List.replicate j (0 : Nat)) = [] := by
  induction j with
  | zero => rfl
  | succ j ih => simp [List.replicate_succ, List.dropWhile, ih]

theorem stripTrailingZeros_append_replicate (l : List Nat) (j : Nat) :
    stripTrailingZeros (l ++ List.replicate j 0) = stripTrailingZeros l := by
  unfold stripTrailingZeros
  rw [List.reverse_append, List.reverse_replicate, List.dropWhile_append]
  rw [dropWhile_zero_replicate]
  simp

theorem stripTrailingZeros_of_getLast (l : List Nat)
    (h : l.getLast? ≠ some 0) : stripTrailingZeros l = l := by
  induction l using List.reverseRecOn with
  | nil => rfl
  | append_singleton xs a _ =>
    have ha : a ≠ 0 := by
      intro h0
      subst h0
      exact h (by simp)
    unfold stripTrailingZeros
    rw [List.reverse_append]
    show ((a :: xs.reverse).dropWhile (fun b => b == 0)).reverse = _
    rw [List.dropWhile_cons_of_neg (by simpa using ha)]
    simp

theorem stripTrailingZeros_leBytesPad (m n : Nat) (hn : n < 256 ^ m) :
    stripTrailingZeros (leBytesPad n m) = leEnc n := by
  rw [leBytesPad_eq_enc m n hn, stripTrailingZeros_append_replicate,
    stripTrailingZeros_of_getLast _ (leEnc_getLast_ne_zero n)]

theorem leVal_leEnc (n : Nat) : leVal (leEnc n) = n := by
  induction n using Nat.strong_induction_on with
  | _ n ih =>
    by_cases h0 : n = 0
    · simp [h0, leEnc_zero, leVal]
    · rw [leEnc_pos n h0]
      show n % 256 + 256 * leVal (leEnc (n / 256)) = n
      rw [ih (n / 256) (Nat.div_lt_self (Nat.pos_of_ne_zero h0) (by norm_num))]
      exact Nat.mod_add_div n 256

theorem flatten_limbs (n : Nat) (hn : n < 2 ^ 256) :
    (([n % 2 ^ 64, n / 2 ^ 64 % 2 ^ 64, n / 2 ^ 128 % 2 ^ 64,
      n / 2 ^ 192 % 2 ^ 64].map u64_to_le_bytes)).flatten =
      leBytesPad n 32 := by
  have h8 : (256 : Nat) ^ 8 = 2 ^ 64 := by norm_num
  have e1 : leBytesPad n 32 =
      leBytesPad (n % 2 ^ 64) 8 ++ leBytesPad (n / 2 ^ 64) 24 := by
    have := leBytesPad_split 8 24 n
    rwa [h8] at this
  have e2 : leBytesPad (n / 2 ^ 64) 24 =
      leBytesPad (n / 2 ^ 64 % 2 ^ 64) 8 ++ leBytesPad (n / 2 ^ 128) 16 := by
    have := leBytesPad_split 8 16 (n / 2 ^ 64)
    rw [h8] at this
    rwa [Nat.div_div_eq_div_mul, show (2:Nat) ^ 64 * 2 ^ 64 = 2 ^ 128 by ring]
      at this
  have e3 : leBytesPad (n / 2 ^ 128) 16 =
      leBytesPad (n / 2 ^ 128 % 2 ^ 64) 8 ++ leBytesPad (n / 2 ^ 192) 8 := by
    have := leBytesPad_split 8 8 (n / 2 ^ 128)
    rw [h8] at this
    rwa [Nat.div_div_eq_div_mul, show (2:Nat) ^ 128 * 2 ^ 64 = 2 ^ 192 by ring]
      at this
  have e4 : n / 2 ^ 192 % 2 ^ 64 = n / 2 ^ 192 := by
    apply Nat.mod_eq_of_lt
    rw [Nat.div_lt_iff_lt_mul (by positivity)]
    calc n < 2 ^ 256 := hn
    _ = 2 ^ 64 * 2 ^ 192 := by ring
  rw [e1, e2, e3, ← e4]
  simp [u64_to_le_bytes]

theorem take_leBytesPad32 (n : Nat) (hn : n < 256 ^ 30) :
    (leBytesPad n 32).take 30 = leBytesPad n 30 := by
  have e : leBytesPad n 32 =
      leBytesPad (n % 256 ^ 30) 30 ++ leBytesPad (n / 256 ^ 30) 2 :=
    leBytesPad_split 30 2 n
  rw [e, Nat.mod_eq_of_lt hn]
  rw [List.take_left' (leBytesPad_length 30 n)]

theorem frModulus_lt_pow30 : frModulus < 256 ^ 30 := by
  norm_num [frModulus]

theorem frModulus_lt_pow256 : frModulus < 2 ^ 256 := by
  norm_num [frModulus]

/-- The scalar-to-byte conversion computes the minimal little-endian
encoding of the canonical representative of the scalar. -/
theorem bigint_to_le_bytes_fr (k : Fr) :
    bigint_to_le_bytes (frIntoBigint k) = leEnc k.val := by
  have hval : k.val < frModulus := ZMod.val_lt k
  have h30 : k.val < 256 ^ 30 := lt_trans hval frModulus_lt_pow30
  have h256 : k.val < 2 ^ 256 := lt_trans hval frModulus_lt_pow256
  unfold bigint_to_le_bytes frIntoBigint
  rw [flatten_limbs k.val h256, take_leBytesPad32 k.val h30,
    stripTrailingZeros_leBytesPad 30 k.val h30]

theorem cyclicEngine_encode_ofFn (p : ZMod 5) :
    List.ofFn (cyclicEngine.encode p) = p.val :: List.replicate 29 0 := by
  have h0 : List.ofFn (cyclicEngine.encode p) =
      cyclicEngine.encode p 0 :: List.ofFn (fun i : Fin 29 =>
        cyclicEngine.encode p i.succ) := List.ofFn_succ _
  rw [h0]
  have h1 : (cyclicEngine.encode p 0 : Nat) = p.val := by
    simp [cyclicEngine]
  have h2 : (fun i : Fin 29 => cyclicEngine.encode p i.succ) =
      fun _ : Fin 29 => 0 := by
    funext i
    simp [cyclicEngine, Fin.val_succ]
  rw [h1, h2]
  simp

theorem cyclicEngine_decode_encode (p : ZMod 5) :
    cyclicEngine.decode (List.ofFn (cyclicEngine.encode p)) = some p := by
  rw [cyclicEngine_encode_ofFn]
  have hlt : p.val < 5 := ZMod.val_lt p
  show (if p.val < 5 ∧ List.replicate 29 0 = List.replicate 29 0
      then some ((p.val : ZMod 5)) else none) = some p
  rw [if_pos ⟨hlt, rfl⟩, ZMod.natCast_rightInverse p]

theorem cyclicEngine_contract : EngineContract cyclicEngine := by
  constructor
  · intro p q
    by_cases h : p = q <;> simp [cyclicEngine, h]
  · intro p
    simp [cyclicEngine]
  · intro p q
    by_cases h : p = q
    · subst h; rfl
    · have h' : ¬q = p := fun hq => h hq.symm
      simp [cyclicEngine, h, h']
  · intro p q h
    have hpq : p = q := by
      by_contra hne
      simp [cyclicEngine, hne] at h
    subst hpq
    rfl
  · intro p
    exact ⟨p, cyclicEngine_decode_encode p, by simp [cyclicEngine]⟩
  · intro p bytes h
    simp [cyclicEngine, h]
  · intro p bytes h
    simp [cyclicEngine, h]

theorem val_zero_fr : (0 : Fr).val = 0 := ZMod.val_zero

theorem val_one_fr : (1 : Fr).val = 1 := ZMod.val_one frModulus

theorem bytes_of_scalar_zero : bigint_to_le_bytes (frIntoBigint (0 : Fr)) = [] := by
  rw [bigint_to_le_bytes_fr, val_zero_fr, leEnc_zero]

theorem bytes_of_scalar_one : bigint_to_le_bytes (frIntoBigint (1 : Fr)) = [1] := by
  rw [bigint_to_le_bytes_fr, val_one_fr, leEnc_pos 1 one_ne_zero]
  norm_num [leEnc_zero]

theorem deserialize_ofFn_encode (E : Xs233Engine) (hE : EngineContract E)
    (pt : E.Point) :
    ∃ q, Xsk233Projective.deserialize_compressed E (List.ofFn (E.encode pt)) =
      .ok ⟨q⟩ ∧ E.equals q pt ≠ 0 := by
  obtain ⟨q, hq, hqe⟩ := hE.decode_encode pt
  refine ⟨q, ?_, hqe⟩
  have hlen : (List.ofFn (E.encode pt)).length = 30 := by simp
  unfold Xsk233Projective.deserialize_compressed
    Xsk233Projective.deserialize_with_mode
  rw [if_neg (by rw [hlen]; omega), List.take_of_length_le (le_of_eq hlen), hq]

/-- C1: for every valid point (affine or projective), compressed
serialization succeeds and writes exactly 30 bytes, independent of the point
value (the identity included since the point is universally quantified), and
compressed deserialization of those 30 bytes succeeds with a point equal to
the original under the wrapper's equality. -/
theorem claim1_serialize_roundtrip (E : Xs233Engine) (hE : EngineContract E)
    (a : Xsk233Affine E) (p : Xsk233Projective E) :
    (a.serialize_compressed.1 = .ok () ∧
      a.serialize_compressed.2.length = 30) ∧
    (p.serialize_compressed.1 = .ok () ∧
      p.serialize_compressed.2.length = 30) ∧
    (∃ a', Xsk233Affine.deserialize_compressed E a.serialize_compressed.2 =
      .ok a' ∧ a'.beq a = true) ∧
    (∃ p', Xsk233Projective.deserialize_compressed E p.serialize_compressed.2 =
      .ok p' ∧ p'.beq p = true) := by
  refine ⟨⟨rfl, by simp [Xsk233Affine.serialize_compressed,
      Xsk233Affine.serialize_with_mode]⟩,
    ⟨rfl, by simp [Xsk233Projective.serialize_compressed,
      Xsk233Projective.serialize_with_mode]⟩, ?_, ?_⟩
  · obtain ⟨q, hq, hqe⟩ := deserialize_ofFn_encode E hE a.pt
    refine ⟨⟨q⟩, ?_, ?_⟩
    · show (Xsk233Projective.deserialize_compressed E
        (List.ofFn (E.encode a.pt))).map Xsk233Projective.into_affine = _
      rw [hq]
      rfl
    · show (E.equals q a.pt != 0) = true
      exact bne_iff_ne.mpr hqe
  · obtain ⟨q, hq, hqe⟩ := deserialize_ofFn_encode E hE p.pt
    exact ⟨⟨q⟩, hq, bne_iff_ne.mpr hqe⟩

theorem claim1_witness :
    ((Xsk233Affine.serialize_compressed
        (⟨(2 : ZMod 5)⟩ : Xsk233Affine cyclicEngine)).1 = .ok () ∧
      (Xsk233Affine.serialize_compressed
        (⟨(2 : ZMod 5)⟩ : Xsk233Affine cyclicEngine)).2.length = 30) ∧
    ((Xsk233Projective.serialize_compressed
        (⟨(0 : ZMod 5)⟩ : Xsk233Projective cyclicEngine)).1 = .ok () ∧
      (Xsk233Projective.serialize_compressed
        (⟨(0 : ZMod 5)⟩ : Xsk233Projective cyclicEngine)).2.length = 30) ∧
    (∃ a', Xsk233Affine.deserialize_compressed cyclicEngine
        (Xsk233Affine.serialize_compressed
          (⟨(2 : ZMod 5)⟩ : Xsk233Affine cyclicEngine)).2 = .ok a' ∧
      a'.beq ⟨(2 : ZMod 5)⟩ = true) ∧
    (∃ p', Xsk233Projective.deserialize_compressed cyclicEngine
        (Xsk233Projective.serialize_compressed
          (⟨(0 : ZMod 5)⟩ : Xsk233Projective cyclicEngine)).2 = .ok p' ∧
      p'.beq ⟨(0 : ZMod 5)⟩ = true) :=
  claim1_serialize_roundtrip cyclicEngine cyclicEngine_contract
    ⟨(2 : ZMod 5)⟩ ⟨(0 : ZMod 5)⟩

/-- C2: requesting the uncompressed mode is rejected with an explicit
`Unsupported` io error on every point and every byte input, for both
serialization (which then writes nothing) and deserialization, on both the
affine and the projective wrapper. -/
theorem claim2_uncompressed_rejected (E : Xs233Engine)
    (p : Xsk233Projective E) (a : Xsk233Affine E) (reader : List Nat)
    (v : Validate) :
    p.serialize_with_mode .No =
      (.error (.ioError .unsupported
        "serialization without compression is not supported"), []) ∧
    a.serialize_with_mode .No =
      (.error (.ioError .unsupported
        "serialization without compression is not supported"), []) ∧
    Xsk233Projective.deserialize_with_mode E reader .No v =
      .error (.ioError .unsupported
        "deserialization without compression is not supported") ∧
    Xsk233Affine.deserialize_with_mode E reader .No v =
      .error (.ioError .unsupported
        "deserialization without compression is not supported") :=
  ⟨rfl, rfl, rfl, rfl⟩

/-- C3: `mul_by_cofactor_to_group` multiplies by the scalar made from
`COFACTOR[0]`, the cofactor constant is `[4]` (so that scalar has value 4,
notwithstanding the source doc comment claiming 1), and `clear_cofactor` is
`mul_by_cofactor_to_group` followed by the conversion back to affine. -/
theorem claim3_cofactor (E : Xs233Engine) (a : Xsk233Affine E) :
    Xsk233CurveConfig.COFACTOR = [4] ∧
    a.mul_by_cofactor_to_group =
      a.mulScalar ((Xsk233CurveConfig.COFACTOR.headI : Nat) : Fr) ∧
    (((Xsk233CurveConfig.COFACTOR.headI : Nat) : Fr)).val = 4 ∧
    a.clear_cofactor = a.mul_by_cofactor_to_group.into_affine := by
  refine ⟨rfl, rfl, ?_, rfl⟩
  show (((4 : Nat) : Fr)).val = 4
  rw [ZMod.val_natCast]
  exact Nat.mod_eq_of_lt (by norm_num [frModulus])

/-- C4: the wrapper equality is reflexive on both representations, the
affine-projective and projective-affine comparisons agree, and every
comparison is exactly a test on the external engine's equality primitive
applied to the wrapped points (never a structural comparison of the wrapped
values). -/
theorem claim4_equality (E : Xs233Engine) (hE : EngineContract E)
    (a b : Xsk233Affine E) (p q : Xsk233Projective E) :
    a.beq a = true ∧ p.beq p = true ∧
    a.beq b = b.beq a ∧ p.beq q = q.beq p ∧
    a.beqProj p = p.beqAff a ∧
    a.beq b = (E.equals a.pt b.pt != 0) ∧
    p.beq q = (E.equals p.pt q.pt != 0) ∧
    a.beqProj p = (4294967295 == E.equals a.pt p.pt) ∧
    p.beqAff a = (E.equals p.pt a.pt != 0) := by
  refine ⟨?_, ?_, ?_, ?_, ?_, rfl, rfl, rfl, rfl⟩
  · show (E.equals a.pt a.pt != 0) = true
    rw [hE.equals_refl]
    decide
  · show (E.equals p.pt p.pt != 0) = true
    rw [hE.equals_refl]
    decide
  · show (E.equals a.pt b.pt != 0) = (E.equals b.pt a.pt != 0)
    rw [hE.equals_symm a.pt b.pt]
  · show (E.equals p.pt q.pt != 0) = (E.equals q.pt p.pt != 0)
    rw [hE.equals_symm p.pt q.pt]
  · show (4294967295 == E.equals a.pt p.pt) = (E.equals p.pt a.pt != 0)
    rw [hE.equals_symm p.pt a.pt]
    rcases hE.equals_cases a.pt p.pt with h | h <;> rw [h] <;> decide

theorem claim4_witness :
    Xsk233Affine.beq (⟨(3 : ZMod 5)⟩ : Xsk233Affine cyclicEngine)
      ⟨(3 : ZMod 5)⟩ = true ∧
    Xsk233Projective.beq (⟨(4 : ZMod 5)⟩ : Xsk233Projective cyclicEngine)
      ⟨(4 : ZMod 5)⟩ = true ∧
    Xsk233Affine.beq (⟨(3 : ZMod 5)⟩ : Xsk233Affine cyclicEngine)
        ⟨(2 : ZMod 5)⟩ =
      Xsk233Affine.beq (⟨(2 : ZMod 5)⟩ : Xsk233Affine cyclicEngine)
        ⟨(3 : ZMod 5)⟩ ∧
    Xsk233Projective.beq (⟨(4 : ZMod 5)⟩ : Xsk233Projective cyclicEngine)
        ⟨(1 : ZMod 5)⟩ =
      Xsk233Projective.beq (⟨(1 : ZMod 5)⟩ : Xsk233Projective cyclicEngine)
        ⟨(4 : ZMod 5)⟩ ∧
    Xsk233Affine.beqProj (⟨(3 : ZMod 5)⟩ : Xsk233Affine cyclicEngine)
        ⟨(4 : ZMod 5)⟩ =
      Xsk233Projective.beqAff (⟨(4 : ZMod 5)⟩ : Xsk233Projective cyclicEngine)
        ⟨(3 : ZMod 5)⟩ ∧
    Xsk233Affine.beq (⟨(3 : ZMod 5)⟩ : Xsk233Affine cyclicEngine)
        ⟨(2 : ZMod 5)⟩ =
      (cyclicEngine.equals (3 : ZMod 5) (2 : ZMod 5) != 0) ∧
    Xsk233Projective.beq (⟨(4 : ZMod 5)⟩ : Xsk233Projective cyclicEngine)
        ⟨(1 : ZMod 5)⟩ =
      (cyclicEngine.equals (4 : ZMod 5) (1 : ZMod 5) != 0) ∧
    Xsk233Affine.beqProj (⟨(3 : ZMod 5)⟩ : Xsk233Affine cyclicEngine)
        ⟨(4 : ZMod 5)⟩ =
      (4294967295 == cyclicEngine.equals (3 : ZMod 5) (4 : ZMod 5)) ∧
    Xsk233Projective.beqAff (⟨(4 : ZMod 5)⟩ : Xsk233Projective cyclicEngine)
        ⟨(3 : ZMod 5)⟩ =
      (cyclicEngine.equals (4 : ZMod 5) (3 : ZMod 5) != 0) :=
  claim4_equality cyclicEngine cyclicEngine_contract
    ⟨(3 : ZMod 5)⟩ ⟨(2 : ZMod 5)⟩ ⟨(4 : ZMod 5)⟩ ⟨(1 : ZMod 5)⟩

/-- C5: hashing is a congruence for the wrapper equality across all
representation pairings, and the data fed to the hasher is always the
canonical compressed serialized byte form, never the raw wrapped value. -/
theorem claim5_hash_congruence (E : Xs233Engine) (hE : EngineContract E)
    (a b : Xsk233Affine E) (p q : Xsk233Projective E) :
    (p.beq q = true → p.hash_input = q.hash_input) ∧
    (a.beq b = true → a.hash_input = b.hash_input) ∧
    (a.beqProj p = true → a.hash_input = p.hash_input) ∧
    (p.beqAff a = true → p.hash_input = a.hash_input) ∧
    p.hash_input = p.serialize_compressed.2 ∧
    a.hash_input = a.serialize_compressed.2 := by
  have henc : ∀ x y : E.Point, E.equals x y ≠ 0 →
      List.ofFn (E.encode x) = List.ofFn (E.encode y) := by
    intro x y h
    rw [hE.equals_encode x y h]
  refine ⟨?_, ?_, ?_, ?_, rfl, rfl⟩
  · intro h
    exact henc p.pt q.pt (bne_iff_ne.mp h)
  · intro h
    exact henc a.pt b.pt (bne_iff_ne.mp h)
  · intro h
    have hv : E.equals a.pt p.pt = 4294967295 := (beq_iff_eq.mp h).symm
    exact henc a.pt p.pt (by rw [hv]; decide)
  · intro h
    exact henc p.pt a.pt (bne_iff_ne.mp h)

theorem claim5_witness :
    (Xsk233Projective.beq (⟨(2 : ZMod 5)⟩ : Xsk233Projective cyclicEngine)
        ⟨(2 : ZMod 5)⟩ = true →
      Xsk233Projective.hash_input
          (⟨(2 : ZMod 5)⟩ : Xsk233Projective cyclicEngine) =
        Xsk233Projective.hash_input
          (⟨(2 : ZMod 5)⟩ : Xsk233Projective cyclicEngine)) ∧
    (Xsk233Affine.beq (⟨(1 : ZMod 5)⟩ : Xsk233Affine cyclicEngine)
        ⟨(1 : ZMod 5)⟩ = true →
      Xsk233Affine.hash_input (⟨(1 : ZMod 5)⟩ : Xsk233Affine cyclicEngine) =
        Xsk233Affine.hash_input
          (⟨(1 : ZMod 5)⟩ : Xsk233Affine cyclicEngine)) ∧
    (Xsk233Affine.beqProj (⟨(1 : ZMod 5)⟩ : Xsk233Affine cyclicEngine)
        ⟨(2 : ZMod 5)⟩ = true →
      Xsk233Affine.hash_input (⟨(1 : ZMod 5)⟩ : Xsk233Affine cyclicEngine) =
        Xsk233Projective.hash_input
          (⟨(2 : ZMod 5)⟩ : Xsk233Projective cyclicEngine)) ∧
    (Xsk233Projective.beqAff
        (⟨(2 : ZMod 5)⟩ : Xsk233Projective cyclicEngine) ⟨(1 : ZMod 5)⟩ =
          true →
      Xsk233Projective.hash_input
          (⟨(2 : ZMod 5)⟩ : Xsk233Projective cyclicEngine) =
        Xsk233Affine.hash_input
          (⟨(1 : ZMod 5)⟩ : Xsk233Affine cyclicEngine)) ∧
    Xsk233Projective.hash_input
        (⟨(2 : ZMod 5)⟩ : Xsk233Projective cyclicEngine) =
      (Xsk233Projective.serialize_compressed
        (⟨(2 : ZMod 5)⟩ : Xsk233Projective cyclicEngine)).2 ∧
    Xsk233Affine.hash_input (⟨(1 : ZMod 5)⟩ : Xsk233Affine cyclicEngine) =
      (Xsk233Affine.serialize_compressed
        (⟨(1 : ZMod 5)⟩ : Xsk233Affine cyclicEngine)).2 :=
  claim5_hash_congruence cyclicEngine cyclicEngine_contract
    ⟨(1 : ZMod 5)⟩ ⟨(1 : ZMod 5)⟩ ⟨(2 : ZMod 5)⟩ ⟨(2 : ZMod 5)⟩

/-- C6: scalar multiplication by the scalar-field element 0 yields a point
equal to the identity, and by the scalar-field element 1 a point equal to the
input, for both the affine and the projective wrapper. -/
theorem claim6_scalar_mul_zero_one (E : Xs233Engine) (hE : EngineContract E)
    (a : Xsk233Affine E) (p : Xsk233Projective E) :
    (a.mulScalar 0).beq (Xsk233Projective.zero E) = true ∧
    (p.mulScalar 0).beq (Xsk233Projective.zero E) = true ∧
    (a.mulScalar 1).beqAff a = true ∧
    (p.mulScalar 1).beq p = true := by
  refine ⟨?_, ?_, ?_, ?_⟩
  · show (E.equals (E.mulFrob a.pt (bigint_to_le_bytes (frIntoBigint 0)))
      E.neutral != 0) = true
    rw [bytes_of_scalar_zero]
    exact bne_iff_ne.mpr (hE.mulFrob_zero a.pt [] rfl)
  · show (E.equals (E.mulFrob p.pt (bigint_to_le_bytes (frIntoBigint 0)))
      E.neutral != 0) = true
    rw [bytes_of_scalar_zero]
    exact bne_iff_ne.mpr (hE.mulFrob_zero p.pt [] rfl)
  · show (E.equals (E.mulFrob a.pt (bigint_to_le_bytes (frIntoBigint 1)))
      a.pt != 0) = true
    rw [bytes_of_scalar_one]
    exact bne_iff_ne.mpr (hE.mulFrob_one a.pt [1] rfl)
  · show (E.equals (E.mulFrob p.pt (bigint_to_le_bytes (frIntoBigint 1)))
      p.pt != 0) = true
    rw [bytes_of_scalar_one]
    exact bne_iff_ne.mpr (hE.mulFrob_one p.pt [1] rfl)

theorem claim6_witness :
    (Xsk233Affine.mulScalar (⟨(3 : ZMod 5)⟩ : Xsk233Affine cyclicEngine)
        0).beq (Xsk233Projective.zero cyclicEngine) = true ∧
    (Xsk233Projective.mulScalar
        (⟨(2 : ZMod 5)⟩ : Xsk233Projective cyclicEngine) 0).beq
      (Xsk233Projective.zero cyclicEngine) = true ∧
    (Xsk233Affine.mulScalar (⟨(3 : ZMod 5)⟩ : Xsk233Affine cyclicEngine)
        1).beqAff ⟨(3 : ZMod 5)⟩ = true ∧
    (Xsk233Projective.mulScalar
        (⟨(2 : ZMod 5)⟩ : Xsk233Projective cyclicEngine) 1).beq
      ⟨(2 : ZMod 5)⟩ = true :=
  claim6_scalar_mul_zero_one cyclicEngine cyclicEngine_contract
    ⟨(3 : ZMod 5)⟩ ⟨(2 : ZMod 5)⟩

/-- C7: the scalar-to-byte conversion is the little-endian byte encoding of
the integer value of the scalar with all trailing zero bytes stripped: it is
the minimal encoding `leEnc` of the canonical value (whose value it
determines), it is empty for the scalar 0, it never ends in a zero byte, it
is never longer than 30 bytes, and it is exactly the byte sequence handed to
the external scalar-multiplication primitive. -/
theorem claim7_scalar_bytes (k : Fr) :
    bigint_to_le_bytes (frIntoBigint k) = leEnc k.val ∧
    leVal (bigint_to_le_bytes (frIntoBigint k)) = k.val ∧
    bigint_to_le_bytes (frIntoBigint (0 : Fr)) = [] ∧
    (bigint_to_le_bytes (frIntoBigint k)).getLast? ≠ some 0 ∧
    (bigint_to_le_bytes (frIntoBigint k)).length ≤ 30 ∧
    (∀ (E : Xs233Engine) (p : Xsk233Projective E),
      p.mulScalar k = ⟨E.mulFrob p.pt (bigint_to_le_bytes (frIntoBigint k))⟩) ∧
    (∀ (E : Xs233Engine) (a : Xsk233Affine E),
      a.mulScalar k = ⟨E.mulFrob a.pt (bigint_to_le_bytes (frIntoBigint k))⟩) := by
  have he : bigint_to_le_bytes (frIntoBigint k) = leEnc k.val :=
    bigint_to_le_bytes_fr k
  have h30 : k.val < 256 ^ 30 := lt_trans (ZMod.val_lt k) frModulus_lt_pow30
  refine ⟨he, ?_, bytes_of_scalar_zero, ?_, ?_, fun E p => rfl, fun E a => rfl⟩
  · rw [he]
    exact leVal_leEnc k.val
  · rw [he]
    exact leEnc_getLast_ne_zero k.val
  · rw [he]
    exact leEnc_length_le 30 k.val h30

/-- C8: coordinate extraction `xy()` panics with an explicit
unsupported-operation message on every affine point and never returns a value
(in particular never zeros). -/
theorem claim8_xy_unsupported (E : Xs233Engine) (a : Xsk233Affine E) :
    (∃ msg, a.xy = RustOutcome.panicked msg) ∧
    ∀ v : Option (Fq × Fq), a.xy ≠ RustOutcome.ok v := by
  refine ⟨⟨_, rfl⟩, ?_⟩
  intro v h
  exact RustOutcome.noConfusion h

/-- C9: `normalize_batch` panics on every input slice, the empty slice
included, and in particular never succeeds with any result list (it is not a
no-op identity conversion in this revision). -/
theorem claim9_normalize_batch_unsupported (E : Xs233Engine)
    (v : List (Xsk233Projective E)) :
    (∃ msg, Xsk233Projective.normalize_batch E v = RustOutcome.panicked msg) ∧
    (∀ l, Xsk233Projective.normalize_batch E v ≠ RustOutcome.ok l) ∧
    (∃ msg, Xsk233Projective.normalize_batch E [] =
      RustOutcome.panicked msg) := by
  refine ⟨⟨_, rfl⟩, ?_, ⟨_, rfl⟩⟩
  intro l h
  exact RustOutcome.noConfusion h

/-- C10: projective `batch_check` panics (through the unimplemented
`normalize_batch`) on every input batch, the empty one included, while
single-point `check` always returns `Ok` on both representations. -/
theorem claim10_batch_check_unusable (E : Xs233Engine)
    (batch : List (Xsk233Projective E)) (p : Xsk233Projective E)
    (a : Xsk233Affine E) :
    (∃ msg, Xsk233Projective.batch_check E batch = RustOutcome.panicked msg) ∧
    (∀ r, Xsk233Projective.batch_check E batch ≠ RustOutcome.ok r) ∧
    (∃ msg, Xsk233Projective.batch_check E [] = RustOutcome.panicked msg) ∧
    p.check = Except.ok () ∧
    a.check = Except.ok () := by
  refine ⟨⟨_, rfl⟩, ?_, ⟨_, rfl⟩, rfl, rfl⟩
  intro r h
  exact RustOutcome.noConfusion h
